import Mathlib

/-!
Shallow embedding of the fitting widget in `src/widgets/fit.py` (class `Fit`).

Numeric values are modelled as rationals.  External collaborators of the
module (the Levenberg-Marquardt solver `utils.fitLM`, numarray's `sqrt`,
Python's `str` formatting of floats, Python's expression parser, the base
evaluation environment `fnenviron`, the document's dataset store, and the
plotted axis ranges returned by `getPlottedRange`) are parameters of the
embedding, gathered in `FitContext` (with the solver passed separately).
Diagnostics printed by the source (`print` / `sys.stderr.write`) are
modelled as an explicit severity-tagged list.
-/

set_option autoImplicit false

namespace VeuszFit

/-- Severity-tagged diagnostic message: `warn` models `print "Warning: ..."`,
`info` models the other `print` calls, `error` models `sys.stderr.write`. -/
inductive Diag where
  | warn (msg : String)
  | info (msg : String)
  | error (msg : String)
deriving DecidableEq, Repr

/-- A value produced by evaluating an expression: a scalar, a numeric array,
or the floating not-a-number (`numarray.ieeespecial.nan`). -/
inductive Value where
  | num (q : ℚ)
  | arr (l : List ℚ)
  | nan
deriving DecidableEq, Repr

/-- The evaluation environment handed to `eval`: a partial map from names to
values. -/
def Env : Type := String → Option Value

/-- Bind one name in an environment (Python `env[name] = val`). -/
def updateEnv (e : Env) (n : String) (v : Value) : Env :=
  fun m => if m = n then some v else e m

/-- Bind a list of (name, scalar) pairs left to right, later bindings
shadowing earlier ones (a sequence of `env[name] = val` assignments). -/
def bindNumList (e : Env) (l : List (String × ℚ)) : Env :=
  l.foldl (fun acc nv => updateEnv acc nv.1 (Value.num nv.2)) e

/-- Abstract form of the expression the Python parser produces from the
`function` setting string before `eval` evaluates it. -/
inductive Expr where
  | const (q : ℚ)
  | var (n : String)
  | add (a b : Expr)
  | mul (a b : Expr)
  | div (a b : Expr)
deriving DecidableEq, Repr

/-- Pointwise arithmetic on values with numarray broadcasting; `nan` is
absorbing, and arrays of different lengths are a shape-mismatch error. -/
def liftBinop (f : ℚ → ℚ → ℚ) : Value → Value → Except String Value
  | Value.nan, _ => Except.ok Value.nan
  | _, Value.nan => Except.ok Value.nan
  | Value.num a, Value.num b => Except.ok (Value.num (f a b))
  | Value.num a, Value.arr l => Except.ok (Value.arr (l.map (fun b => f a b)))
  | Value.arr l, Value.num b => Except.ok (Value.arr (l.map (fun a => f a b)))
  | Value.arr l₁, Value.arr l₂ =>
      if l₁.length = l₂.length then Except.ok (Value.arr (List.zipWith f l₁ l₂))
      else Except.error "shape mismatch"

/-- Division, raising `ZeroDivisionError` on a zero divisor. -/
def divVal : Value → Value → Except String Value
  | Value.nan, _ => Except.ok Value.nan
  | _, Value.nan => Except.ok Value.nan
  | Value.num a, Value.num b =>
      if b = 0 then Except.error "ZeroDivisionError"
      else Except.ok (Value.num (a / b))
  | Value.num a, Value.arr l =>
      if l.any (fun b => decide (b = 0)) then Except.error "ZeroDivisionError"
      else Except.ok (Value.arr (l.map (fun b => a / b)))
  | Value.arr l, Value.num b =>
      if b = 0 then Except.error "ZeroDivisionError"
      else Except.ok (Value.arr (l.map (fun a => a / b)))
  | Value.arr l₁, Value.arr l₂ =>
      if l₁.length = l₂.length then
        if l₂.any (fun b => decide (b = 0)) then Except.error "ZeroDivisionError"
        else Except.ok (Value.arr (List.zipWith (fun a b => a / b) l₁ l₂))
      else Except.error "shape mismatch"

/-- Evaluate a parsed expression in an environment; an unbound name is a
`NameError`, and operator failures propagate as errors (Python exceptions). -/
def evalExpr : Expr → Env → Except String Value
  | Expr.const q, _ => Except.ok (Value.num q)
  | Expr.var n, env =>
      match env n with
      | some v => Except.ok v
      | none => Except.error ("NameError: " ++ n)
  | Expr.add a b, env => do
      liftBinop (fun x y => x + y) (← evalExpr a env) (← evalExpr b env)
  | Expr.mul a b, env => do
      liftBinop (fun x y => x * y) (← evalExpr a env) (← evalExpr b env)
  | Expr.div a b, env => do
      divVal (← evalExpr a env) (← evalExpr b env)

/-- One dataset of the document: values plus optional symmetric, positive
and negative error arrays (`.data`, `.serr`, `.perr`, `.nerr`). -/
structure DatasetData where
  data : List ℚ
  serr : Option (List ℚ)
  perr : Option (List ℚ)
  nerr : Option (List ℚ)
deriving DecidableEq, Repr

/-- The settings of the `Fit` widget that `actionFit`, `evalfunc` and
`generateOutputExpr` read and write.  `variable_` models the `variable`
setting (the independent axis role, `"x"` or `"y"`); `function` is the
expression string to fit. -/
structure FitSettings where
  values : List (String × ℚ)
  xData : String
  yData : String
  fitRange : Bool
  variable_ : String
  function : String
  outExpr : String
  chi2 : ℚ
  dof : Int
  redchi2 : ℚ
deriving DecidableEq, Repr

/-- External collaborators of the widget: the Python parser behind `eval`,
the base environment `fnenviron`, the document's dataset store, the plotted
ranges of the two axes, numarray's `sqrt`, and `str` on floats. -/
structure FitContext where
  parse : String → Except String Expr
  baseEnv : Env
  doc : String → DatasetData
  xAxisRange : ℚ × ℚ
  yAxisRange : ℚ × ℚ
  sqrtFn : ℚ → ℚ
  fmtFloat : ℚ → String

/-- Look up a name in an association list of scalars (Python dict lookup). -/
def lookupVal (l : List (String × ℚ)) (n : String) : Option ℚ :=
  (l.find? (fun p => p.1 == n)).map Prod.snd

/-- Total lookup used for `[s.values[i] for i in names]`, where the names
come from the dict's own keys so the lookup always succeeds. -/
def lookupQ (l : List (String × ℚ)) (n : String) : ℚ :=
  (lookupVal l n).getD 0

/-- Lexicographic comparison of character lists by code point, the order
Python's `list.sort()` uses on strings. -/
def lexLe : List Char → List Char → Bool
  | [], _ => true
  | _ :: _, [] => false
  | a :: as, b :: bs =>
      if a < b then true
      else if a = b then lexLe as bs
      else false

/-- Lexicographic order on strings. -/
def strLe (s t : String) : Prop := lexLe s.data t.data = true

instance : DecidableRel strLe := fun _ _ => inferInstanceAs (Decidable (_ = true))

/-- The sorted parameter-name list: `names = s.values.keys(); names.sort()`.
Python sorts strings lexicographically by code point. -/
def sortedKeys (values : List (String × ℚ)) : List String :=
  (values.map Prod.fst).insertionSort strLe

/-- The boolean mask `logical_and(vs >= rng[0], vs <= rng[1])`. -/
def maskOf (rng : ℚ × ℚ) (vs : List ℚ) : List Bool :=
  vs.map (fun v => decide (rng.1 ≤ v) && decide (v ≤ rng.2))

/-- numarray boolean-mask indexing `vs[mask]`. -/
def applyMask (mask : List Bool) (vs : List ℚ) : List ℚ :=
  (List.zip mask vs).filterMap (fun bv => if bv.1 then some bv.2 else none)

/-- The dataset acting as dependent data (`ydata` in `actionFit`): the
`yData` dataset when the independent variable is `x`, else `xData`. -/
def ydataOf (ctx : FitContext) (s : FitSettings) : DatasetData :=
  if s.variable_ = "x" then ctx.doc s.yData else ctx.doc s.xData

/-- The independent value array (`xvals` in `actionFit`). -/
def xvalsOf (ctx : FitContext) (s : FitSettings) : List ℚ :=
  if s.variable_ = "x" then (ctx.doc s.xData).data else (ctx.doc s.yData).data

/-- Error synthesis, lines 130-138 of `fit.py`: use `serr` when present;
else symmetrise `perr`/`nerr` when both are present; else take 5% of the
dependent values floored at 1e-8.  Returns the working error array and the
warnings printed. -/
def synthErr (sqrtFn : ℚ → ℚ) (ydata : DatasetData) : List ℚ × List Diag :=
  match ydata.serr with
  | some e => (e, [])
  | none =>
      match ydata.perr, ydata.nerr with
      | some pe, some ne =>
          (List.zipWith (fun a b => sqrtFn ((1 / 2) * (a ^ 2 + b ^ 2))) pe ne,
           [Diag.warn "Symmeterising positive and negative errors"])
      | _, _ =>
          let e0 := ydata.data.map (fun v => v * (5 / 100))
          (e0.map (fun v => if v < 1 / 100000000 then 1 / 100000000 else v),
           [Diag.warn "No errors on y values. Assuming 5% errors."])

/-- The cleaned observation arrays together with the diagnostics emitted
while preparing them. -/
structure Prepared where
  xvals : List ℚ
  yvals : List ℚ
  yserr : List ℚ
  diags : List Diag
deriving Repr

/-- Lines 118-154 of `actionFit`: dataset selection, error synthesis and
the optional range restriction.  When `fitRange` is set the mask is built
from `xvals` against the x-axis range in the `variable == 'x'` branch and
from `yvals` (the local name for the dependent array) against the y-axis
range otherwise, exactly as in the source. -/
def prepareData (ctx : FitContext) (s : FitSettings) : Prepared :=
  let xvals := xvalsOf ctx s
  let ydata := ydataOf ctx s
  let yvals := ydata.data
  let es := synthErr ctx.sqrtFn ydata
  if s.fitRange then
    let rng := if s.variable_ = "x" then ctx.xAxisRange else ctx.yAxisRange
    let mask := if s.variable_ = "x" then maskOf rng xvals else maskOf rng yvals
    { xvals := applyMask mask xvals
      yvals := applyMask mask yvals
      yserr := applyMask mask es.1
      diags := es.2 ++
        [Diag.info ("Fitting " ++ s.variable_ ++ " from " ++
          ctx.fmtFloat rng.1 ++ " to " ++ ctx.fmtFloat rng.2)] }
  else
    { xvals := xvals, yvals := yvals, yserr := es.1, diags := es.2 }

/-- The final environment built inside `evalfunc` (lines 191-200): copy the
base environment, bind the static parameter values (`initEnviron`), bind
the independent variable name to the `xvals` array, then bind the sorted
parameter names to the entries of the solver's trial vector. -/
def finalEnv (ctx : FitContext) (s : FitSettings) (params xvals : List ℚ) : Env :=
  let env := bindNumList ctx.baseEnv s.values
  let env := updateEnv env s.variable_ (Value.arr xvals)
  let names := sortedKeys s.values
  bindNumList env (names.zip params)

/-- `Fit.evalfunc`: evaluate the function string in the environment built
by `finalEnv`; any exception (parse failure or evaluation error) is caught
by the bare `except:` and turned into `nan`. -/
def evalfunc (ctx : FitContext) (s : FitSettings) (params xvals : List ℚ) : Value :=
  let env := finalEnv ctx s params xvals
  match ctx.parse s.function >>= (fun e => evalExpr e env) with
  | Except.ok v => v
  | Except.error _ => Value.nan

/-- Character class `[A-Za-z0-9.]` of the `re.split` pattern in
`generateOutputExpr`. -/
def isTokChar (c : Char) : Bool :=
  c.isAlpha || c.isDigit || c == '.'

/-- Helper for `splitParts`: accumulate a run of token characters and emit
each delimiter character as its own part. -/
def splitPartsAux : List Char → List Char → List String
  | [], acc => [String.mk acc.reverse]
  | c :: cs, acc =>
      if isTokChar c then splitPartsAux cs (c :: acc)
      else String.mk acc.reverse :: String.mk [c] :: splitPartsAux cs []

/-- Model of `re.split('([^A-Za-z0-9.])', expr)`: the runs of token
characters (possibly empty) interleaved with the single-character
delimiters that were captured. -/
def splitParts (str : String) : List String :=
  splitPartsAux str.toList []

/-- Look up a name in an association list of strings. -/
def lookupStr (l : List (String × String)) (n : String) : Option String :=
  (l.find? (fun p => p.1 == n)).map Prod.snd

/-- Python dict assignment `d[k] = v` on an association list: replace the
value when the key is present, append the pair otherwise. -/
def setKey (l : List (String × String)) (k v : String) : List (String × String) :=
  if (l.find? (fun p => p.1 == k)).isSome then
    l.map (fun p => if p.1 == k then (p.1, v) else p)
  else l ++ [(k, v)]

/-- The substitution dict `paramvals` of `generateOutputExpr` (lines
210-217), with `str` applied to the parameter floats up front (the source
applies `str` at substitution time, which is the identity on the dataset
name string): every parameter maps to its formatted value, and then the
independent role name is bound to that same role's dataset name
(`paramvals['x'] = s.xData` when the variable is `x`, else
`paramvals['y'] = s.yData`). -/
def substMap (fmt : ℚ → String) (s : FitSettings) : List (String × String) :=
  let pv := s.values.map (fun nv => (nv.1, fmt nv.2))
  if s.variable_ = "x" then setKey pv "x" s.xData else setKey pv "y" s.yData

/-- `Fit.generateOutputExpr`: split the function string, replace each part
that is a key of `paramvals` by its mapped string, and join. -/
def generateOutputExpr (fmt : ℚ → String) (s : FitSettings) : String :=
  let paramvals := substMap fmt s
  let parts := splitParts s.function
  String.join (parts.map (fun p =>
    match lookupStr paramvals p with
    | some v => v
    | none => p))

/-- The solver boundary `utils.fitLM(evalfunc, params, xvals, yvals, yserr)`:
returns the refined vector, the chi-square, and the degrees of freedom. -/
def FitLM : Type :=
  (List ℚ → List ℚ → Value) → List ℚ → List ℚ → List ℚ → List ℚ →
    List ℚ × ℚ × Int

/-- `Fit.actionFit` (lines 105-187): build the sorted name list and initial
vector, prepare the data, run the three validation checks (each aborting
with an error diagnostic and no settings change), invoke the solver, write
the refined values back positionally, record chi-square / degrees of
freedom / reduced chi-square, and render the output expression. -/
def actionFit (ctx : FitContext) (fitLM : FitLM) (s : FitSettings) :
    FitSettings × List Diag :=
  let names := sortedKeys s.values
  let params := names.map (fun n => lookupQ s.values n)
  let pd := prepareData ctx s
  if pd.xvals.length = 0 then
    (s, pd.diags ++ [Diag.error "No data values. Not fitting."])
  else if pd.xvals.length ≠ pd.yvals.length ∨ pd.xvals.length ≠ pd.yserr.length then
    (s, pd.diags ++ [Diag.error "Fit data not equal in length. Not fitting."])
  else if params.length > pd.xvals.length then
    (s, pd.diags ++ [Diag.error "No degrees of freedom for fit. Not fitting"])
  else
    let r := fitLM (evalfunc ctx s) params pd.xvals pd.yvals pd.yserr
    let retn := r.1
    let chi2 := r.2.1
    let dof := r.2.2
    let vals := names.zip retn
    let s1 := { s with values := vals, chi2 := chi2, dof := dof }
    let s2d :=
      if dof ≤ 0 then
        ({ s1 with redchi2 := -1 }, [Diag.info "No degrees of freedom in fit."])
      else
        ({ s1 with redchi2 := chi2 / (dof : ℚ) }, ([] : List Diag))
    let s2 := s2d.1
    let s3 := { s2 with outExpr := generateOutputExpr ctx.fmtFloat s2 }
    (s3, pd.diags ++ s2d.2)

/-- Modelled from the spec: the substitution mapping as the specification
describes it, for comparison with `substMap` — every parameter mapped to
its formatted value plus the independent role name mapped to the name of
the dataset playing the dependent role (`yData` when the variable is `x`,
`xData` otherwise). -/
def substMapSpec (fmt : ℚ → String) (s : FitSettings) : List (String × String) :=
  let pv := s.values.map (fun nv => (nv.1, fmt nv.2))
  if s.variable_ = "x" then setKey pv "x" s.yData else setKey pv "y" s.xData

/-! ### Concrete sample data used by witnesses and counterexamples -/

/-- Sample float formatting (`str`) used in concrete instances. -/
def sampleFmt : ℚ → String := fun q => toString q.num

/-- Sample square root: correct on the perfect squares the samples use. -/
def sampleSqrt : ℚ → ℚ := fun q => if q = 9 then 3 else if q = 16 then 4 else 0

/-- Sample parser: only the expression string `"q"` parses (to the variable
`q`); everything else is a syntax error. -/
def sampleParse : String → Except String Expr :=
  fun str => if str = "q" then Except.ok (Expr.var "q") else Except.error "SyntaxError"

/-- Sample base environment with no bindings. -/
def sampleBase : Env := fun _ => none

/-- Sample solver: returns the initial vector with chi-square 10 and 5
degrees of freedom. -/
def sampleFitLM : FitLM := fun _ p _ _ _ => (p, 10, 5)

/-- Document for the range-restriction divergence: the independent series
`yd` is [1,2,3], the dependent series `xd` is [10,20,30] with symmetric
errors. -/
def rangeBugDoc : String → DatasetData := fun n =>
  if n = "yd" then { data := [1, 2, 3], serr := some [1, 1, 1], perr := none, nerr := none }
  else { data := [10, 20, 30], serr := some [1, 1, 1], perr := none, nerr := none }

/-- Settings fitting with independent variable `y` and range restriction
enabled. -/
def rangeBugSettings : FitSettings :=
  { values := [("a", 0)], xData := "xd", yData := "yd", fitRange := true,
    variable_ := "y", function := "a", outExpr := "", chi2 := -1, dof := -1,
    redchi2 := -1 }

/-- Context for the range-restriction divergence: the y axis (the axis of
the independent variable `y`) has plotted range (2, 4). -/
def rangeBugCtx : FitContext :=
  { parse := sampleParse, baseEnv := sampleBase, doc := rangeBugDoc,
    xAxisRange := (0, 0), yAxisRange := (2, 4), sqrtFn := sampleSqrt,
    fmtFloat := sampleFmt }

/-- Settings for the renderer: parameter a = 2, datasets named `xs`/`ys`,
independent variable `x`, expression `a + b*x`. -/
def renderSettings : FitSettings :=
  { values := [("a", 2)], xData := "xs", yData := "ys", fitRange := false,
    variable_ := "x", function := "a + b*x", outExpr := "", chi2 := -1,
    dof := -1, redchi2 := -1 }

/-- Document with one data point per dataset. -/
def abortDoc : String → DatasetData := fun _ =>
  { data := [1], serr := some [1], perr := none, nerr := none }

/-- Settings with two parameters (more than the single data point). -/
def abortSettings : FitSettings :=
  { values := [("a", 0), ("b", 1)], xData := "x", yData := "y",
    fitRange := false, variable_ := "x", function := "a+b*x", outExpr := "",
    chi2 := -1, dof := -1, redchi2 := -1 }

/-- Context over `abortDoc`. -/
def abortCtx : FitContext :=
  { parse := sampleParse, baseEnv := sampleBase, doc := abortDoc,
    xAxisRange := (0, 0), yAxisRange := (0, 0), sqrtFn := sampleSqrt,
    fmtFloat := sampleFmt }

/-- Settings whose function string is `"q"`, an unbound name. -/
def evalSettings : FitSettings :=
  { values := [("a", 2)], xData := "x", yData := "y", fitRange := false,
    variable_ := "x", function := "q", outExpr := "", chi2 := -1, dof := -1,
    redchi2 := -1 }

/-- Document whose dependent series [10, 20] has no uncertainty data. -/
def percentDoc : String → DatasetData := fun n =>
  if n = "x" then { data := [1, 2], serr := some [1, 1], perr := none, nerr := none }
  else { data := [10, 20], serr := none, perr := none, nerr := none }

/-- Context over `percentDoc`. -/
def percentCtx : FitContext :=
  { parse := sampleParse, baseEnv := sampleBase, doc := percentDoc,
    xAxisRange := (0, 0), yAxisRange := (0, 0), sqrtFn := sampleSqrt,
    fmtFloat := sampleFmt }

/-- Settings with a single parameter fitting `x` against `y`. -/
def percentSettings : FitSettings :=
  { values := [("a", 0)], xData := "x", yData := "y", fitRange := false,
    variable_ := "x", function := "a", outExpr := "", chi2 := -1, dof := -1,
    redchi2 := -1 }

/-- Document whose dependent series has only asymmetric errors [3, 4]. -/
def symmDoc : String → DatasetData := fun n =>
  if n = "x" then { data := [1, 2], serr := some [1, 1], perr := none, nerr := none }
  else { data := [10, 20], serr := none, perr := some [3, 4], nerr := some [3, 4] }

/-- Settings with a single parameter fitting `x` against `y`, used with
`symmDoc`. -/
def symmSettings : FitSettings :=
  { values := [("a", 0)], xData := "x", yData := "y", fitRange := false,
    variable_ := "x", function := "a", outExpr := "", chi2 := -1, dof := -1,
    redchi2 := -1 }

/-- Context over `symmDoc`. -/
def symmCtx : FitContext :=
  { parse := sampleParse, baseEnv := sampleBase, doc := symmDoc,
    xAxisRange := (0, 0), yAxisRange := (0, 0), sqrtFn := sampleSqrt,
    fmtFloat := sampleFmt }

/-- Document with three points and a symmetric-error dependent series. -/
def fitDoc : String → DatasetData := fun n =>
  if n = "x" then { data := [1, 2, 3], serr := none, perr := none, nerr := none }
  else { data := [10, 20, 30], serr := some [1, 1, 1], perr := none, nerr := none }

/-- Two-parameter settings over `fitDoc`. -/
def fitSettings : FitSettings :=
  { values := [("a", 0), ("b", 1)], xData := "x", yData := "y",
    fitRange := false, variable_ := "x", function := "a+b*x", outExpr := "",
    chi2 := -1, dof := -1, redchi2 := -1 }

/-- Context over `fitDoc`. -/
def fitCtx : FitContext :=
  { parse := sampleParse, baseEnv := sampleBase, doc := fitDoc,
    xAxisRange := (0, 0), yAxisRange := (0, 0), sqrtFn := sampleSqrt,
    fmtFloat := sampleFmt }

/-- Document with two points per dataset (p = n case). -/
def pnDoc : String → DatasetData := fun n =>
  if n = "x" then { data := [1, 2], serr := none, perr := none, nerr := none }
  else { data := [10, 20], serr := some [1, 1], perr := none, nerr := none }

/-- Context over `pnDoc`. -/
def pnCtx : FitContext :=
  { parse := sampleParse, baseEnv := sampleBase, doc := pnDoc,
    xAxisRange := (0, 0), yAxisRange := (0, 0), sqrtFn := sampleSqrt,
    fmtFloat := sampleFmt }

/-- Settings whose parameter set contains a parameter named like the
independent variable `x`. -/
def shadowSettings : FitSettings :=
  { values := [("x", 1)], xData := "xd", yData := "yd", fitRange := false,
    variable_ := "x", function := "x", outExpr := "", chi2 := -1, dof := -1,
    redchi2 := -1 }

/-! ### Helper lemmas about the environment and the sorted key list -/

theorem updateEnv_self (e : Env) (n : String) (v : Value) :
    updateEnv e n v n = some v := by
  simp [updateEnv]

theorem updateEnv_ne (e : Env) {m n : String} (v : Value) (h : m ≠ n) :
    updateEnv e n v m = e m := by
  simp [updateEnv, h]

theorem bindNumList_cons (e : Env) (p : String × ℚ) (l : List (String × ℚ)) :
    bindNumList e (p :: l) = bindNumList (updateEnv e p.1 (Value.num p.2)) l := rfl

theorem bindNumList_not_mem (e : Env) {l : List (String × ℚ)} {n : String}
    (h : ∀ p ∈ l, p.1 ≠ n) : bindNumList e l n = e n := by
  induction l generalizing e with
  | nil => rfl
  | cons p l ih =>
      rw [bindNumList_cons, ih _ (fun q hq => h q (List.mem_cons_of_mem p hq))]
      exact updateEnv_ne e _ (fun hn => h p (List.mem_cons_self p l) hn.symm) |>.symm ▸ rfl

theorem bindZip_get (e : Env) {ns : List String} {ps : List ℚ} {n : String}
    (hnd : ns.Nodup) (hmem : n ∈ ns) (hlen : ns.length ≤ ps.length) :
    bindNumList e (ns.zip ps) n = some (Value.num (ps.getD (ns.indexOf n) 0)) := by
  induction ns generalizing ps e with
  | nil => cases hmem
  | cons m ns ih =>
      cases ps with
      | nil => simp at hlen
      | cons q ps =>
          rw [List.zip_cons_cons, bindNumList_cons]
          by_cases hn : n = m
          · subst hn
            have hnot : ∀ p ∈ ns.zip ps, p.1 ≠ n := by
              intro p hp he
              exact (List.nodup_cons.1 hnd).1 (he ▸ (List.of_mem_zip hp).1)
            rw [bindNumList_not_mem _ hnot, List.indexOf_cons_self, List.getD_cons_zero]
            exact updateEnv_self _ _ _
          · have hmem' : n ∈ ns := (List.mem_cons.1 hmem).resolve_left hn
            rw [ih _ (List.nodup_cons.1 hnd).2 hmem' (Nat.succ_le_succ_iff.1 hlen),
              List.indexOf_cons_ne _ (fun he => hn he.symm), List.getD_cons_succ]

theorem lexLe_total : ∀ a b : List Char, lexLe a b = true ∨ lexLe b a = true
  | [], _ => Or.inl rfl
  | _ :: _, [] => Or.inr rfl
  | a :: as, b :: bs => by
      rcases lt_trichotomy a b with h | h | h
      · left; simp [lexLe, h]
      · subst h
        rcases lexLe_total as bs with ih | ih
        · left; simp [lexLe, lt_irrefl, ih]
        · right; simp [lexLe, lt_irrefl, ih]
      · right; simp [lexLe, h]

theorem lexLe_trans : ∀ {a b c : List Char},
    lexLe a b = true → lexLe b c = true → lexLe a c = true
  | [], _, _, _, _ => rfl
  | _ :: _, [], _, h, _ => absurd h (by simp [lexLe])
  | _ :: _, _ :: _, [], _, h => absurd h (by simp [lexLe])
  | a :: as, b :: bs, c :: cs, h1, h2 => by
      by_cases hab : a < b
      · by_cases hbc : b < c
        · simp [lexLe, lt_trans hab hbc]
        · by_cases hbceq : b = c
          · subst hbceq; simp [lexLe, hab]
          · exact absurd h2 (by simp [lexLe, hbc, hbceq])
      · by_cases habeq : a = b
        · subst habeq
          by_cases hac : a < c
          · simp [lexLe, hac]
          · by_cases haceq : a = c
            · subst haceq
              have h1Tl : lexLe as bs = true := by
                revert h1; simp [lexLe, lt_irrefl]
              have h2Tl : lexLe bs cs = true := by
                revert h2; simp [lexLe, lt_irrefl]
              simp [lexLe, lt_irrefl, lexLe_trans h1Tl h2Tl]
            · exact absurd h2 (by simp [lexLe, hac, haceq])
        · exact absurd h1 (by simp [lexLe, hab, habeq])

theorem lexLe_antisymm : ∀ {a b : List Char},
    lexLe a b = true → lexLe b a = true → a = b
  | [], [], _, _ => rfl
  | [], _ :: _, _, h => absurd h (by simp [lexLe])
  | _ :: _, [], h, _ => absurd h (by simp [lexLe])
  | a :: as, b :: bs, h1, h2 => by
      rcases lt_trichotomy a b with h | h | h
      · exact absurd h2 (by simp [lexLe, asymm h, ne_of_gt h])
      · subst h
        have h1Tl : lexLe as bs = true := by revert h1; simp [lexLe, lt_irrefl]
        have h2Tl : lexLe bs as = true := by revert h2; simp [lexLe, lt_irrefl]
        rw [lexLe_antisymm h1Tl h2Tl]
      · exact absurd h1 (by simp [lexLe, asymm h, ne_of_gt h])

theorem strLe_total : ∀ a b : String, strLe a b ∨ strLe b a :=
  fun a b => lexLe_total a.data b.data

theorem strLe_trans : ∀ {a b c : String}, strLe a b → strLe b c → strLe a c :=
  fun h1 h2 => lexLe_trans h1 h2

theorem strLe_antisymm : ∀ {a b : String}, strLe a b → strLe b a → a = b := by
  intro a b h1 h2
  cases a with
  | mk da =>
      cases b with
      | mk db => exact congrArg String.mk (lexLe_antisymm h1 h2)

theorem sortedKeys_perm (v : List (String × ℚ)) :
    (v.map Prod.fst).Perm (sortedKeys v) :=
  (List.perm_insertionSort _ _).symm

theorem sortedKeys_sorted (v : List (String × ℚ)) :
    (sortedKeys v).Sorted strLe :=
  letI : IsTotal String strLe := ⟨strLe_total⟩
  letI : IsTrans String strLe := ⟨fun _ _ _ => strLe_trans⟩
  List.sorted_insertionSort _ _

theorem sortedKeys_eq_of_perm {v₁ v₂ : List (String × ℚ)}
    (h : (v₁.map Prod.fst).Perm (v₂.map Prod.fst)) :
    sortedKeys v₁ = sortedKeys v₂ :=
  letI : IsAntisymm String strLe := ⟨fun _ _ => strLe_antisymm⟩
  List.eq_of_perm_of_sorted
    ((sortedKeys_perm v₁).symm.trans (h.trans (sortedKeys_perm v₂)))
    (sortedKeys_sorted v₁) (sortedKeys_sorted v₂)

theorem sortedKeys_nodup {v : List (String × ℚ)}
    (h : (v.map Prod.fst).Nodup) : (sortedKeys v).Nodup :=
  (sortedKeys_perm v).nodup h

/-- Binding lemma for the evaluator's environment: with duplicate-free
parameter names, a name in the sorted key list ends up bound to the entry
of the solver's trial vector at that name's sorted position, whatever was
bound to it before (the static value or the independent-variable array). -/
theorem finalEnv_bound (ctx : FitContext) (s : FitSettings)
    {params : List ℚ} (xvals : List ℚ) {n : String}
    (hnd : (s.values.map Prod.fst).Nodup) (hmem : n ∈ sortedKeys s.values)
    (hlen : (sortedKeys s.values).length ≤ params.length) :
    finalEnv ctx s params xvals n =
      some (Value.num (params.getD ((sortedKeys s.values).indexOf n) 0)) := by
  unfold finalEnv
  exact bindZip_get _ (sortedKeys_nodup hnd) hmem hlen

/-! ### Helper lemmas about the renderer's substitution dict -/

theorem lookupStr_cons (p : String × String) (l : List (String × String)) (n : String) :
    lookupStr (p :: l) n = if p.1 == n then some p.2 else lookupStr l n := by
  simp only [lookupStr, List.find?_cons]
  cases h : p.1 == n <;> simp

theorem lookupStr_replaceAll (l : List (String × String)) (k v : String) :
    lookupStr (l.map (fun p => if p.1 == k then (p.1, v) else p)) k =
      if (l.find? (fun p => p.1 == k)).isSome then some v else none := by
  induction l with
  | nil => simp [lookupStr]
  | cons p l ih =>
      simp only [beq_iff_eq] at ih
      by_cases hk : p.1 = k
      · rw [List.find?_cons_of_pos _ (by simpa using hk)]
        simp [List.map_cons, hk, lookupStr_cons]
      · have hb : (p.1 == k) = false := beq_eq_false_iff_ne.2 hk
        rw [List.find?_cons_of_neg _ (by simp [hk])]
        simp [List.map_cons, hk, lookupStr_cons, ih]

theorem lookupStr_replaceAll_ne (l : List (String × String)) (k v : String)
    {n : String} (h : n ≠ k) :
    lookupStr (l.map (fun p => if p.1 == k then (p.1, v) else p)) n = lookupStr l n := by
  induction l with
  | nil => simp [lookupStr]
  | cons p l ih =>
      simp only [beq_iff_eq] at ih
      by_cases hk : p.1 = k
      · have hpn : ¬ p.1 = n := fun he => h (he ▸ hk)
        have hkn : ¬ k = n := fun he => h he.symm
        simp [List.map_cons, hk, hpn, hkn, lookupStr_cons, ih]
      · simp [List.map_cons, hk, lookupStr_cons, ih]

theorem lookupStr_append_single (l : List (String × String)) (k v n : String) :
    lookupStr (l ++ [(k, v)]) n =
      match lookupStr l n with
      | some w => some w
      | none => if k == n then some v else none := by
  induction l with
  | nil => simp [lookupStr_cons, lookupStr]
  | cons p l ih =>
      rw [List.cons_append, lookupStr_cons, lookupStr_cons]
      cases h : p.1 == n <;> simp [ih]

theorem lookupStr_setKey_self (l : List (String × String)) (k v : String) :
    lookupStr (setKey l k v) k = some v := by
  unfold setKey
  by_cases h : (l.find? (fun p => p.1 == k)).isSome
  · rw [if_pos h, lookupStr_replaceAll, if_pos h]
  · rw [if_neg h, lookupStr_append_single]
    have : lookupStr l k = none := by
      simp only [lookupStr]
      rw [Option.not_isSome_iff_eq_none.1 h]
      rfl
    simp [this]

theorem lookupStr_setKey_ne (l : List (String × String)) (k v : String)
    {n : String} (h : n ≠ k) :
    lookupStr (setKey l k v) n = lookupStr l n := by
  unfold setKey
  by_cases hs : (l.find? (fun p => p.1 == k)).isSome
  · rw [if_pos hs, lookupStr_replaceAll_ne _ _ _ h]
  · rw [if_neg hs, lookupStr_append_single]
    have hkn : (k == n) = false := beq_eq_false_iff_ne.2 (Ne.symm h)
    cases hl : lookupStr l n <;> simp [hkn]

theorem lookupStr_map_fmt (values : List (String × ℚ)) (fmt : ℚ → String)
    (n : String) :
    lookupStr (values.map (fun nv => (nv.1, fmt nv.2))) n =
      (lookupVal values n).map fmt := by
  induction values with
  | nil => simp [lookupStr, lookupVal]
  | cons p l ih =>
      simp only [List.map_cons, lookupStr_cons, lookupVal, List.find?_cons]
      cases h : p.1 == n <;> simp_all [lookupStr, lookupVal]

/-! ### Diagnostics severity lemmas -/

theorem synthErr_no_error (sq : ℚ → ℚ) (yd : DatasetData) (m : String) :
    Diag.error m ∉ (synthErr sq yd).2 := by
  unfold synthErr
  rcases yd.serr with _ | e
  · rcases hp : yd.perr with _ | pe <;> rcases hn : yd.nerr with _ | ne <;> simp [hp, hn]
  · simp

theorem prepareData_no_error (ctx : FitContext) (s : FitSettings) (m : String) :
    Diag.error m ∉ (prepareData ctx s).diags := by
  unfold prepareData
  by_cases hf : s.fitRange <;>
    simp [hf, List.mem_append, synthErr_no_error]

/-! ### Claim theorems -/

/-- C1: the claim states that with range restriction enabled the points
kept are exactly those whose independent-variable value lies in the
plotted range of the independent variable's axis, for either independent
role.  The code violates this in the `variable == 'y'` branch: there the
mask is computed from the local `yvals`, which holds the dependent series
(the `xData` values), against the y-axis range.  At the concrete input
below (independent `y` series [1,2,3], y-axis range (2,4), dependent
series [10,20,30]) the independent-value mask would keep [2,3], but the
code keeps nothing and aborts with "No data values". -/
theorem c1_range_mask_divergence :
    xvalsOf rangeBugCtx rangeBugSettings = [1, 2, 3]
    ∧ rangeBugSettings.fitRange = true
    ∧ rangeBugCtx.yAxisRange = (2, 4)
    ∧ applyMask (maskOf rangeBugCtx.yAxisRange (xvalsOf rangeBugCtx rangeBugSettings))
        (xvalsOf rangeBugCtx rangeBugSettings) = [2, 3]
    ∧ (prepareData rangeBugCtx rangeBugSettings).xvals = []
    ∧ (actionFit rangeBugCtx sampleFitLM rangeBugSettings).2 =
        [Diag.info "Fitting y from 2 to 4",
         Diag.error "No data values. Not fitting."] := by
  decide

/-- C2 counterexample: the claim says the extra substitution entry maps the
independent role name to the identifier of the dataset playing the
dependent role.  With independent variable `x`, `xData = "xs"` and
`yData = "ys"`, the code binds `"x"` to `"xs"` (the independent role's own
dataset), not to the dependent `"ys"` that the claim (mirrored by
`substMapSpec`) predicts, and the rendered text contains `xs`. -/
theorem c2_counterexample :
    lookupStr (substMap sampleFmt renderSettings) "x" = some "xs"
    ∧ lookupStr (substMapSpec sampleFmt renderSettings) "x" = some "ys"
    ∧ ¬ lookupStr (substMap sampleFmt renderSettings) "x" = some "ys"
    ∧ generateOutputExpr sampleFmt renderSettings = "2 + b*xs" := by
  decide

/-- C2 (amended): the substitution mapping consists of every parameter
name mapped to its string-formatted value, plus one additional entry
mapping the independent-variable's role name to the identifier of the
dataset bound to that same independent role (`xData` for `x`, `yData` for
`y`), so the independent variable is the token replaced by its data-series
identifier. -/
theorem c2_substMap_amended (fmt : ℚ → String) (s : FitSettings) :
    (s.variable_ = "x" → lookupStr (substMap fmt s) "x" = some s.xData)
    ∧ (s.variable_ ≠ "x" → lookupStr (substMap fmt s) "y" = some s.yData)
    ∧ (∀ n, n ≠ (if s.variable_ = "x" then "x" else "y") →
        lookupStr (substMap fmt s) n = (lookupVal s.values n).map fmt) := by
  unfold substMap
  by_cases hv : s.variable_ = "x"
  · refine ⟨fun _ => ?_, fun hc => absurd hv hc, fun n hn => ?_⟩
    · rw [if_pos hv, lookupStr_setKey_self]
    · rw [if_pos hv] at hn ⊢
      rw [lookupStr_setKey_ne _ _ _ hn, lookupStr_map_fmt]
  · refine ⟨fun hc => absurd hc hv, fun _ => ?_, fun n hn => ?_⟩
    · rw [if_neg hv, lookupStr_setKey_self]
    · rw [if_neg hv] at hn ⊢
      rw [lookupStr_setKey_ne _ _ _ hn, lookupStr_map_fmt]

/-- C2 witness: at the concrete renderer input, the independent role name
`x` is bound to the dataset name `xs` of the independent role, and the
parameter `a` is bound to its formatted value. -/
theorem c2_witness :
    lookupStr (substMap sampleFmt renderSettings) "x" = some renderSettings.xData
    ∧ lookupStr (substMap sampleFmt renderSettings) "a" =
        (lookupVal renderSettings.values "a").map sampleFmt :=
  ⟨(c2_substMap_amended sampleFmt renderSettings).1 rfl,
   (c2_substMap_amended sampleFmt renderSettings).2.2 "a" (by decide)⟩

/-- C3: whenever no point survives masking, or the three prepared arrays
differ in length, or the parameter count exceeds the data point count, the
fit aborts: the returned settings (parameter set and all fit-result
fields) are exactly the pre-fit settings, an error diagnostic is reported,
and the result does not depend on the solver at all (the solver is never
invoked). -/
theorem c3_abort_preserves_state (ctx : FitContext) (fitLM : FitLM) (s : FitSettings)
    (h : (prepareData ctx s).xvals.length = 0
       ∨ (prepareData ctx s).xvals.length ≠ (prepareData ctx s).yvals.length
       ∨ (prepareData ctx s).xvals.length ≠ (prepareData ctx s).yserr.length
       ∨ (sortedKeys s.values).length > (prepareData ctx s).xvals.length) :
    (actionFit ctx fitLM s).1 = s
    ∧ (∃ m, Diag.error m ∈ (actionFit ctx fitLM s).2)
    ∧ ∀ fitLM2 : FitLM, actionFit ctx fitLM2 s = actionFit ctx fitLM s := by
  by_cases hA : (prepareData ctx s).xvals.length = 0
  · refine ⟨?_, ⟨"No data values. Not fitting.", ?_⟩, fun f2 => ?_⟩ <;>
      simp [actionFit, hA]
  · by_cases hB : (prepareData ctx s).xvals.length ≠ (prepareData ctx s).yvals.length ∨
        (prepareData ctx s).xvals.length ≠ (prepareData ctx s).yserr.length
    · refine ⟨?_, ⟨"Fit data not equal in length. Not fitting.", ?_⟩, fun f2 => ?_⟩ <;>
        simp [actionFit, hA, hB]
    · by_cases hC : (prepareData ctx s).xvals.length < (sortedKeys s.values).length
      · refine ⟨?_, ⟨"No degrees of freedom for fit. Not fitting", ?_⟩, fun f2 => ?_⟩ <;>
          simp [actionFit, hA, hB, hC, List.length_map]
      · exfalso
        rcases h with h | h | h | h
        · exact hA h
        · exact hB (Or.inl h)
        · exact hB (Or.inr h)
        · exact hC h

/-- C3 witness: with two parameters and a single data point the fit aborts
and the settings are returned unchanged. -/
theorem c3_witness :
    ((sortedKeys abortSettings.values).length >
      (prepareData abortCtx abortSettings).xvals.length)
    ∧ (actionFit abortCtx sampleFitLM abortSettings).1 = abortSettings :=
  ⟨by decide,
   (c3_abort_preserves_state abortCtx sampleFitLM abortSettings
      (Or.inr (Or.inr (Or.inr (by decide))))).1⟩

/-- C4: for every configuration whose prepared arrays are equal in length
with at least one point and at least as many points as parameters, the fit
does not abort in the preparation stage: no error diagnostic is emitted
(none of the three validation branches is taken, even when the parameter
count equals the point count) and the solver's result is recorded. -/
theorem c4_no_abort (ctx : FitContext) (fitLM : FitLM) (s : FitSettings)
    (h1 : (prepareData ctx s).xvals.length = (prepareData ctx s).yvals.length)
    (h2 : (prepareData ctx s).xvals.length = (prepareData ctx s).yserr.length)
    (h3 : 1 ≤ (prepareData ctx s).xvals.length)
    (h4 : (sortedKeys s.values).length ≤ (prepareData ctx s).xvals.length) :
    (∀ m, Diag.error m ∉ (actionFit ctx fitLM s).2)
    ∧ (actionFit ctx fitLM s).1.dof =
        (fitLM (evalfunc ctx s)
          ((sortedKeys s.values).map (fun n => lookupQ s.values n))
          (prepareData ctx s).xvals (prepareData ctx s).yvals
          (prepareData ctx s).yserr).2.2 := by
  have hA : ¬ (prepareData ctx s).xvals.length = 0 := by omega
  have hB : ¬ ((prepareData ctx s).xvals.length ≠ (prepareData ctx s).yvals.length ∨
      (prepareData ctx s).xvals.length ≠ (prepareData ctx s).yserr.length) := by
    push_neg
    exact ⟨h1, h2⟩
  have hC : ¬ ((sortedKeys s.values).map (fun n => lookupQ s.values n)).length >
      (prepareData ctx s).xvals.length := by
    rw [List.length_map]
    omega
  constructor
  · intro m
    simp only [actionFit, hA, hB, hC, if_false, if_neg hA, if_neg hB, if_neg hC]
    rw [List.mem_append]
    rintro (hm | hm)
    · exact prepareData_no_error ctx s m hm
    · revert hm
      split <;> simp
  · simp only [actionFit, if_neg hA, if_neg hB, if_neg hC]
    split <;> rfl

/-- C4 witness: with two parameters and exactly two data points (degrees
of freedom zero before fitting) the fit still reaches the solver: no
error diagnostic is emitted and the solver's degrees of freedom are
recorded. -/
theorem c4_witness :
    Diag.error "No data values. Not fitting." ∉
      (actionFit pnCtx sampleFitLM abortSettings).2
    ∧ (actionFit pnCtx sampleFitLM abortSettings).1.dof = 5 := by
  have h := c4_no_abort pnCtx sampleFitLM abortSettings
    (by decide) (by decide) (by decide) (by decide)
  exact ⟨h.1 _, by rw [h.2]; rfl⟩

/-- Without range restriction the working error of the prepared data is
exactly the synthesized error array. -/
theorem prepareData_yserr_no_range (ctx : FitContext) (s : FitSettings)
    (hf : s.fitRange = false) :
    (prepareData ctx s).yserr = (synthErr ctx.sqrtFn (ydataOf ctx s)).1 := by
  simp [prepareData, hf]

/-- Evaluation of `synthErr` in the 5%-synthesis branch: no symmetric
error and not both asymmetric errors present. -/
theorem synthErr_percent (sq : ℚ → ℚ) (yd : DatasetData)
    (h1 : yd.serr = none) (h2 : ¬ (yd.perr ≠ none ∧ yd.nerr ≠ none)) :
    synthErr sq yd =
      ((yd.data.map (fun v => v * (5 / 100))).map
        (fun v => if v < 1 / 100000000 then 1 / 100000000 else v),
       [Diag.warn "No errors on y values. Assuming 5% errors."]) := by
  unfold synthErr
  rcases hp : yd.perr with _ | pe <;> rcases hn : yd.nerr with _ | ne <;>
    simp only [h1, hp, hn]
  exact absurd ⟨by simp [hp], by simp [hn]⟩ h2

/-- Evaluation of `synthErr` in the symmetrisation branch. -/
theorem synthErr_symm (sq : ℚ → ℚ) (yd : DatasetData) {pe ne : List ℚ}
    (h1 : yd.serr = none) (h2 : yd.perr = some pe) (h3 : yd.nerr = some ne) :
    synthErr sq yd =
      (List.zipWith (fun a b => sq ((1 / 2) * (a ^ 2 + b ^ 2))) pe ne,
       [Diag.warn "Symmeterising positive and negative errors"]) := by
  unfold synthErr
  simp only [h1, h2, h3]

/-- C5: when the dependent series has no symmetric uncertainty and not
both asymmetric uncertainties are present (including when exactly one of
the two is present), the working error is 5% of each dependent value with
every entry below 1e-8 replaced by 1e-8, a warning is surfaced, and (when
no range restriction applies) this array is exactly the prepared working
error handed to the solver. -/
theorem c5_percent_synthesis (ctx : FitContext) (s : FitSettings)
    (h1 : (ydataOf ctx s).serr = none)
    (h2 : ¬ ((ydataOf ctx s).perr ≠ none ∧ (ydataOf ctx s).nerr ≠ none)) :
    (synthErr ctx.sqrtFn (ydataOf ctx s)).1 =
      (((ydataOf ctx s).data.map (fun v => v * (5 / 100))).map
        (fun v => if v < 1 / 100000000 then 1 / 100000000 else v))
    ∧ Diag.warn "No errors on y values. Assuming 5% errors." ∈
        (synthErr ctx.sqrtFn (ydataOf ctx s)).2
    ∧ (s.fitRange = false →
        (prepareData ctx s).yserr = (synthErr ctx.sqrtFn (ydataOf ctx s)).1) := by
  have key := synthErr_percent ctx.sqrtFn (ydataOf ctx s) h1 h2
  exact ⟨by rw [key], by rw [key]; simp,
    fun hf => prepareData_yserr_no_range ctx s hf⟩

/-- C5 witness: dependent values [10, 20] with no uncertainty data give
the synthesized working error [0.5, 1]. -/
theorem c5_witness :
    (synthErr percentCtx.sqrtFn (ydataOf percentCtx percentSettings)).1 = [1 / 2, 1]
    ∧ Diag.warn "No errors on y values. Assuming 5% errors." ∈
        (synthErr percentCtx.sqrtFn (ydataOf percentCtx percentSettings)).2 := by
  have h := c5_percent_synthesis percentCtx percentSettings (by decide) (by decide)
  have hd : (ydataOf percentCtx percentSettings).data = [10, 20] := by decide
  refine ⟨?_, h.2.1⟩
  rw [h.1, hd]
  norm_num

/-- C6: when the dependent series has no symmetric uncertainty but both
asymmetric uncertainties are present, the working error at each point is
the square root of half the sum of the squares of the positive and
negative uncertainties, a warning is surfaced, and (when no range
restriction applies) this array is the prepared working error. -/
theorem c6_symmetrization (ctx : FitContext) (s : FitSettings) (pe ne : List ℚ)
    (h1 : (ydataOf ctx s).serr = none)
    (h2 : (ydataOf ctx s).perr = some pe)
    (h3 : (ydataOf ctx s).nerr = some ne) :
    (synthErr ctx.sqrtFn (ydataOf ctx s)).1 =
      List.zipWith (fun a b => ctx.sqrtFn ((1 / 2) * (a ^ 2 + b ^ 2))) pe ne
    ∧ Diag.warn "Symmeterising positive and negative errors" ∈
        (synthErr ctx.sqrtFn (ydataOf ctx s)).2
    ∧ (s.fitRange = false →
        (prepareData ctx s).yserr = (synthErr ctx.sqrtFn (ydataOf ctx s)).1) := by
  have key := synthErr_symm ctx.sqrtFn (ydataOf ctx s) h1 h2 h3
  exact ⟨by rw [key], by rw [key]; simp,
    fun hf => prepareData_yserr_no_range ctx s hf⟩

/-- C6 witness: positive and negative errors [3, 4] with no symmetric
error give the symmetrized working error [3, 4]. -/
theorem c6_witness :
    (synthErr symmCtx.sqrtFn (ydataOf symmCtx symmSettings)).1 = [3, 4]
    ∧ Diag.warn "Symmeterising positive and negative errors" ∈
        (synthErr symmCtx.sqrtFn (ydataOf symmCtx symmSettings)).2 := by
  have e1 : (ydataOf symmCtx symmSettings).serr = none := by decide
  have e2 : (ydataOf symmCtx symmSettings).perr = some ([3, 4] : List ℚ) := by decide
  have e3 : (ydataOf symmCtx symmSettings).nerr = some ([3, 4] : List ℚ) := by decide
  have h := c6_symmetrization symmCtx symmSettings [3, 4] [3, 4] e1 e2 e3
  refine ⟨?_, h.2.1⟩
  rw [h.1]
  norm_num [symmCtx, sampleSqrt]

/-- C7: when the fit reaches the solver, the solver's chi-square and
degrees of freedom are stored; the reduced chi-square is chi-square over
degrees of freedom whenever the degrees of freedom are positive, and
otherwise it is the sentinel -1 together with an informational "no degrees
of freedom" report. -/
theorem c7_chi2_outputs (ctx : FitContext) (fitLM : FitLM) (s : FitSettings)
    (h1 : (prepareData ctx s).xvals.length = (prepareData ctx s).yvals.length)
    (h2 : (prepareData ctx s).xvals.length = (prepareData ctx s).yserr.length)
    (h3 : 1 ≤ (prepareData ctx s).xvals.length)
    (h4 : (sortedKeys s.values).length ≤ (prepareData ctx s).xvals.length) :
    (actionFit ctx fitLM s).1.chi2 =
      (fitLM (evalfunc ctx s)
        ((sortedKeys s.values).map (fun n => lookupQ s.values n))
        (prepareData ctx s).xvals (prepareData ctx s).yvals
        (prepareData ctx s).yserr).2.1
    ∧ (actionFit ctx fitLM s).1.dof =
      (fitLM (evalfunc ctx s)
        ((sortedKeys s.values).map (fun n => lookupQ s.values n))
        (prepareData ctx s).xvals (prepareData ctx s).yvals
        (prepareData ctx s).yserr).2.2
    ∧ (0 < (fitLM (evalfunc ctx s)
          ((sortedKeys s.values).map (fun n => lookupQ s.values n))
          (prepareData ctx s).xvals (prepareData ctx s).yvals
          (prepareData ctx s).yserr).2.2 →
        (actionFit ctx fitLM s).1.redchi2 =
          (fitLM (evalfunc ctx s)
            ((sortedKeys s.values).map (fun n => lookupQ s.values n))
            (prepareData ctx s).xvals (prepareData ctx s).yvals
            (prepareData ctx s).yserr).2.1 /
          ((fitLM (evalfunc ctx s)
            ((sortedKeys s.values).map (fun n => lookupQ s.values n))
            (prepareData ctx s).xvals (prepareData ctx s).yvals
            (prepareData ctx s).yserr).2.2 : ℚ))
    ∧ ((fitLM (evalfunc ctx s)
          ((sortedKeys s.values).map (fun n => lookupQ s.values n))
          (prepareData ctx s).xvals (prepareData ctx s).yvals
          (prepareData ctx s).yserr).2.2 ≤ 0 →
        (actionFit ctx fitLM s).1.redchi2 = -1
        ∧ Diag.info "No degrees of freedom in fit." ∈ (actionFit ctx fitLM s).2) := by
  have hA : ¬ (prepareData ctx s).xvals.length = 0 := by omega
  have hB : ¬ ((prepareData ctx s).xvals.length ≠ (prepareData ctx s).yvals.length ∨
      (prepareData ctx s).xvals.length ≠ (prepareData ctx s).yserr.length) := by
    push_neg
    exact ⟨h1, h2⟩
  have hC : ¬ ((sortedKeys s.values).map (fun n => lookupQ s.values n)).length >
      (prepareData ctx s).xvals.length := by
    rw [List.length_map]
    omega
  refine ⟨?_, ?_, fun hpos => ?_, fun hneg => ?_⟩
  · simp only [actionFit, if_neg hA, if_neg hB, if_neg hC]
    split <;> rfl
  · simp only [actionFit, if_neg hA, if_neg hB, if_neg hC]
    split <;> rfl
  · simp only [actionFit, if_neg hA, if_neg hB, if_neg hC]
    split
    · next hd => omega
    · rfl
  · simp only [actionFit, if_neg hA, if_neg hB, if_neg hC]
    split
    · exact ⟨rfl, by simp⟩
    · next hd => exact absurd hneg hd

/-- C7 witness: with a solver reporting chi-square 10 and 5 degrees of
freedom, the stored values are 10, 5 and reduced chi-square 2. -/
theorem c7_witness :
    (actionFit fitCtx sampleFitLM fitSettings).1.chi2 = 10
    ∧ (actionFit fitCtx sampleFitLM fitSettings).1.dof = 5
    ∧ (actionFit fitCtx sampleFitLM fitSettings).1.redchi2 = 2 := by
  have h := c7_chi2_outputs fitCtx sampleFitLM fitSettings
    (by decide) (by decide) (by decide) (by decide)
  refine ⟨by rw [h.1]; rfl, by rw [h.2.1]; rfl, ?_⟩
  rw [h.2.2.1 (by decide)]
  norm_num [sampleFitLM]

/-- C8: the expression evaluator is a total function: whenever the parse
or the evaluation of the function string raises (syntax error, unbound
name, shape mismatch, division by zero), `evalfunc` returns `nan` instead
of propagating; when evaluation succeeds it returns the evaluated value,
so no exception ever unwinds into the solver. -/
theorem c8_evalfunc_soft_failure (ctx : FitContext) (s : FitSettings)
    (params xvals : List ℚ) :
    (∀ msg, (ctx.parse s.function >>=
        (fun e => evalExpr e (finalEnv ctx s params xvals))) = Except.error msg →
      evalfunc ctx s params xvals = Value.nan)
    ∧ (∀ v, (ctx.parse s.function >>=
        (fun e => evalExpr e (finalEnv ctx s params xvals))) = Except.ok v →
      evalfunc ctx s params xvals = v)
    ∧ (evalfunc ctx s params xvals = Value.nan ∨
        ∃ v, (ctx.parse s.function >>=
            (fun e => evalExpr e (finalEnv ctx s params xvals))) = Except.ok v ∧
          evalfunc ctx s params xvals = v) := by
  cases h : ctx.parse s.function >>=
      (fun e => evalExpr e (finalEnv ctx s params xvals)) with
  | error msg =>
      refine ⟨fun _ _ => ?_, fun v hv => ?_, Or.inl ?_⟩
      · simp [evalfunc, h]
      · cases hv
      · simp [evalfunc, h]
  | ok v =>
      refine ⟨fun msg hm => ?_, fun w hw => ?_, Or.inr ⟨v, rfl, ?_⟩⟩
      · cases hm
      · cases hw
        simp [evalfunc, h]
      · simp [evalfunc, h]

/-- C8 witness: the function string `"q"` parses to an unbound name, the
evaluation raises a NameError, and `evalfunc` returns `nan`. -/
theorem c8_witness :
    evalfunc abortCtx evalSettings [] [] = Value.nan :=
  (c8_evalfunc_soft_failure abortCtx evalSettings [] []).1 "NameError: q" (by rfl)

/-- C9: the parameter processing order is the lexicographic sort of the
parameter names — a pure function of the key multiset — and this one
order aligns the whole fit positionally: the initial vector is the sorted
names mapped through the value dict, the refined vector is zipped back
onto the sorted names, and inside the evaluator the sorted name at index
i is bound to entry i of the solver's trial vector. -/
theorem c9_sorted_order (v1 v2 : List (String × ℚ)) (ctx : FitContext)
    (fitLM : FitLM) (s : FitSettings) (params xvals : List ℚ) (n : String) :
    ((v1.map Prod.fst).Perm (v2.map Prod.fst) → sortedKeys v1 = sortedKeys v2)
    ∧ (v1.map Prod.fst).Perm (sortedKeys v1)
    ∧ (sortedKeys v1).Sorted strLe
    ∧ ((prepareData ctx s).xvals.length = (prepareData ctx s).yvals.length →
       (prepareData ctx s).xvals.length = (prepareData ctx s).yserr.length →
       1 ≤ (prepareData ctx s).xvals.length →
       (sortedKeys s.values).length ≤ (prepareData ctx s).xvals.length →
       (actionFit ctx fitLM s).1.values =
         (sortedKeys s.values).zip
           ((fitLM (evalfunc ctx s)
             ((sortedKeys s.values).map (fun m => lookupQ s.values m))
             (prepareData ctx s).xvals (prepareData ctx s).yvals
             (prepareData ctx s).yserr).1))
    ∧ ((s.values.map Prod.fst).Nodup → n ∈ sortedKeys s.values →
       (sortedKeys s.values).length ≤ params.length →
       finalEnv ctx s params xvals n =
         some (Value.num (params.getD ((sortedKeys s.values).indexOf n) 0))) := by
  refine ⟨sortedKeys_eq_of_perm, sortedKeys_perm v1, sortedKeys_sorted v1,
    fun h1 h2 h3 h4 => ?_, fun hnd hmem hlen => finalEnv_bound ctx s xvals hnd hmem hlen⟩
  have hA : ¬ (prepareData ctx s).xvals.length = 0 := by omega
  have hB : ¬ ((prepareData ctx s).xvals.length ≠ (prepareData ctx s).yvals.length ∨
      (prepareData ctx s).xvals.length ≠ (prepareData ctx s).yserr.length) := by
    push_neg
    exact ⟨h1, h2⟩
  have hC : ¬ ((sortedKeys s.values).map (fun m => lookupQ s.values m)).length >
      (prepareData ctx s).xvals.length := by
    rw [List.length_map]
    omega
  simp only [actionFit, if_neg hA, if_neg hB, if_neg hC]
  split <;> rfl

/-- C9 witness: key order is independent of the dict order, the refined
vector is written back onto the sorted names, and the evaluator binds the
sorted name `a` (index 0) to trial entry 5. -/
theorem c9_witness :
    sortedKeys [("b", (1 : ℚ)), ("a", 0)] = sortedKeys [("a", (0 : ℚ)), ("b", 1)]
    ∧ (actionFit fitCtx sampleFitLM fitSettings).1.values = [("a", (0 : ℚ)), ("b", 1)]
    ∧ finalEnv fitCtx fitSettings [5, 6] [1, 2, 3] "a" = some (Value.num 5) := by
  have h := c9_sorted_order [("b", (1 : ℚ)), ("a", 0)] [("a", (0 : ℚ)), ("b", 1)]
    fitCtx sampleFitLM fitSettings [5, 6] [1, 2, 3] "a"
  refine ⟨h.1 (by decide), ?_, ?_⟩
  · rw [h.2.2.2.1 (by decide) (by decide) (by decide) (by decide)]
    decide
  · rw [h.2.2.2.2 (by decide) (by decide) (by decide)]
    decide

/-- C10: when the parameter set contains a parameter named like the
configured independent variable, the positional parameter bindings are
applied after the independent-variable binding in `evalfunc`, so the
environment maps that name to the scalar trial value (shadowing the array
of x values) when the expression is evaluated. -/
theorem c10_param_shadows_variable (ctx : FitContext) (s : FitSettings)
    (params xvals : List ℚ)
    (hnd : (s.values.map Prod.fst).Nodup)
    (hmem : s.variable_ ∈ sortedKeys s.values)
    (hlen : (sortedKeys s.values).length ≤ params.length) :
    finalEnv ctx s params xvals s.variable_ =
      some (Value.num (params.getD ((sortedKeys s.values).indexOf s.variable_) 0))
    ∧ finalEnv ctx s params xvals s.variable_ ≠ some (Value.arr xvals) := by
  have h := finalEnv_bound ctx s xvals hnd hmem hlen
  refine ⟨h, ?_⟩
  rw [h]
  intro hc
  cases hc

/-- C10 witness: with a parameter named `x` and independent variable `x`,
the environment binds `x` to the scalar trial value 7, not to the data
array [1, 2]. -/
theorem c10_witness :
    finalEnv abortCtx shadowSettings [7] [1, 2] shadowSettings.variable_ =
      some (Value.num 7)
    ∧ finalEnv abortCtx shadowSettings [7] [1, 2] shadowSettings.variable_ ≠
      some (Value.arr [1, 2]) := by
  have h := c10_param_shadows_variable abortCtx shadowSettings [7] [1, 2]
    (by decide) (by decide) (by decide)
  refine ⟨?_, h.2⟩
  rw [h.1]
  decide

end VeuszFit
